import Mathlib

set_option linter.unusedVariables false

/-
  Shallow embedding of the wechat chat server (src/database.py, src/server.py).

  Machine integers do not overflow in the modelled fragment (sqlite row ids
  are unbounded), so Nat is used throughout.  `created_at` is modelled by the
  row-id counter: sqlite assigns it from `datetime.utcnow()` at insertion
  time inside `save_message`, so it increases strictly with insertion order,
  and `ORDER BY created_at` coincides with table (insertion) order.
  Storage faults (sqlite exceptions raised by `save_message`) are modelled by
  a fault schedule `saveFaults` carried by the database value: the head entry
  decides whether the next `save_message` call raises; `Except Unit` plays
  the role of the propagating exception.
-/

namespace Wechat

/-- A row of the `users` table (database.py `_init_schema`): id, unique
username, password, nickname, optional avatar and signature, role
(default `"user"`). -/
structure User where
  id : Nat
  username : String
  password : String
  nickname : String
  avatar : Option String
  signature : Option String
  role : String
deriving DecidableEq

/-- A row of the `groups` table: id, name, owner. -/
structure Group where
  id : Nat
  name : String
  owner_id : Nat
deriving DecidableEq

/-- A row of the `messages` table. `delivered` is the INTEGER 0/1 flag,
modelled as Bool. -/
structure Msg where
  id : Nat
  sender_id : Nat
  recipient_type : String
  recipient_id : Nat
  content_type : String
  content : String
  created_at : Nat
  delivered : Bool
deriving DecidableEq

/-- The sqlite database state: the tables of `_init_schema` (login_logs is
omitted, no claim touches it), AUTOINCREMENT counters, and the storage-fault
schedule. -/
structure DB where
  users : List User
  nextUserId : Nat
  friends : List (Nat × Nat)
  groups : List Group
  nextGroupId : Nat
  group_members : List (Nat × Nat)
  messages : List Msg
  nextMsgId : Nat
  saveFaults : List Bool
deriving DecidableEq

/-- Models `Database.register_user`: INSERT into users; the UNIQUE constraint on
`username` raises IntegrityError exactly when the username is taken. -/
def register_user (db : DB) (username password nickname : String) :
    DB × Bool × String :=
  if db.users.any (fun u => u.username == username) then
    (db, false, "用户名已存在")
  else
    ({ db with
        users := db.users ++
          [⟨db.nextUserId, username, password, nickname, none, none, "user"⟩],
        nextUserId := db.nextUserId + 1 },
      true, "注册成功")

/-- Models `Database.authenticate`: SELECT * FROM users WHERE username=? AND
password=?; `fetchone` returns the first matching row. -/
def authenticate (db : DB) (username password : String) : Option User :=
  db.users.find? (fun u => u.username == username && u.password == password)

/-- Models `Database.update_profile`: UPDATE of the allowed columns (nickname,
avatar, signature); an `Option` argument models presence of the kwarg. -/
def update_profile (db : DB) (user_id : Nat)
    (nickname avatar signature : Option String) : DB :=
  { db with
      users := db.users.map (fun u =>
        if u.id = user_id then
          { u with
              nickname := nickname.getD u.nickname,
              avatar := match avatar with | some a => some a | none => u.avatar,
              signature := match signature with | some s => some s | none => u.signature }
        else u) }

/-- Models `Database.add_friend`: resolve the friend's username; refuse self;
insert the symmetric pair, where the UNIQUE(user_id, friend_id) constraint
raises IntegrityError when either direction already exists (the transaction
is then not committed, leaving the table unchanged). -/
def add_friend (db : DB) (user_id : Nat) (friend_username : String) :
    DB × Bool × String :=
  match db.users.find? (fun u => u.username == friend_username) with
  | none => (db, false, "好友不存在")
  | some f =>
    if f.id = user_id then (db, false, "不能添加自己")
    else if (user_id, f.id) ∈ db.friends ∨ (f.id, user_id) ∈ db.friends then
      (db, false, "已在好友列表")
    else
      ({ db with friends := db.friends ++ [(user_id, f.id), (f.id, user_id)] },
        true, "已添加")

/-- Models `Database.remove_friend`: DELETE both directions of the pair. -/
def remove_friend (db : DB) (user_id friend_id : Nat) : DB :=
  { db with
      friends := db.friends.filter (fun p =>
        !(p.1 == user_id && p.2 == friend_id) &&
        !(p.1 == friend_id && p.2 == user_id)) }

/-- Insertion into a list sorted by a String key; models SQL ORDER BY. -/
def insertByKey {α : Type} (key : α → String) (x : α) : List α → List α
  | [] => [x]
  | y :: ys => if key x < key y then x :: y :: ys else y :: insertByKey key x ys

/-- Sort by a String key (insertion sort); models SQL ORDER BY. -/
def sortByKey {α : Type} (key : α → String) (l : List α) : List α :=
  l.foldr (insertByKey key) []

/-- Models `Database.list_friends`: join `friends` rows with `user_id=?` against
`users` on `friend_id = u.id`, ORDER BY nickname. -/
def list_friends (db : DB) (user_id : Nat) : List User :=
  sortByKey (fun u => u.nickname)
    ((db.friends.filter (fun p => p.1 == user_id)).filterMap
      (fun p => db.users.find? (fun u => u.id == p.2)))

/-- Models `Database.create_group`: INSERT the group row, then
INSERT OR IGNORE the owner's membership; returns the new group id. -/
def create_group (db : DB) (owner_id : Nat) (name : String) : DB × Nat :=
  let gid := db.nextGroupId
  let db1 := { db with
      groups := db.groups ++ [⟨gid, name, owner_id⟩],
      nextGroupId := gid + 1 }
  let db2 :=
    if (gid, owner_id) ∈ db1.group_members then db1
    else { db1 with group_members := db1.group_members ++ [(gid, owner_id)] }
  (db2, gid)

/-- Models `Database.join_group`: INSERT OR IGNORE the membership row.  OR IGNORE
swallows the UNIQUE violation, so the IntegrityError branch returning False
is unreachable: the call always returns True, for any group id, whether or
not a `groups` row with that id exists (no foreign key is declared). -/
def join_group (db : DB) (user_id group_id : Nat) : DB × Bool :=
  (if (group_id, user_id) ∈ db.group_members then db
   else { db with group_members := db.group_members ++ [(group_id, user_id)] },
    true)

/-- Models `Database.leave_group`: DELETE the membership row. -/
def leave_group (db : DB) (user_id group_id : Nat) : DB :=
  { db with
      group_members := db.group_members.filter (fun p =>
        !(p.1 == group_id && p.2 == user_id)) }

/-- Models `Database.list_groups`: join memberships with `user_id=?` against
`groups`, ORDER BY name. -/
def list_groups (db : DB) (user_id : Nat) : List Group :=
  sortByKey (fun g => g.name)
    ((db.group_members.filter (fun p => p.2 == user_id)).filterMap
      (fun p => db.groups.find? (fun g => g.id == p.1)))

/-- Models `Database.get_group_members`: SELECT user_id FROM group_members WHERE
group_id=?. -/
def get_group_members (db : DB) (group_id : Nat) : List Nat :=
  (db.group_members.filter (fun p => p.1 == group_id)).map (fun p => p.2)

/-- Models `Database.save_message`: INSERT one message row and return its
AUTOINCREMENT id.  A scheduled storage fault makes the call raise
(`Except.error`), leaving the table unchanged. -/
def save_message (db : DB) (sender_id : Nat) (recipient_type : String)
    (recipient_id : Nat) (content_type content : String) (delivered : Bool) :
    Except Unit (DB × Nat) :=
  if db.saveFaults.headD false then .error ()
  else
    .ok ({ db with
        messages := db.messages ++
          [⟨db.nextMsgId, sender_id, recipient_type, recipient_id,
            content_type, content, db.nextMsgId, delivered⟩],
        nextMsgId := db.nextMsgId + 1,
        saveFaults := db.saveFaults.tail },
      db.nextMsgId)

/-- The group ids the user is a member of (the subquery of
`fetch_offline_messages`). -/
def user_groups (db : DB) (user_id : Nat) : List Nat :=
  (db.group_members.filter (fun p => p.2 == user_id)).map (fun p => p.1)

/-- Models `Database.fetch_offline_messages`: undelivered rows addressed to the
user directly or to any group the user belongs to, ORDER BY created_at
(which is table order here, see the header comment). -/
def fetch_offline_messages (db : DB) (user_id : Nat) : List Msg :=
  db.messages.filter (fun m =>
    !m.delivered &&
      ((m.recipient_type == "user" && m.recipient_id == user_id) ||
       (m.recipient_type == "group" &&
         (user_groups db user_id).contains m.recipient_id)))

/-- Models `Database.mark_message_delivered`: UPDATE messages SET delivered=1
WHERE id=?. -/
def mark_message_delivered (db : DB) (message_id : Nat) : DB :=
  { db with
      messages := db.messages.map (fun m =>
        if m.id = message_id then { m with delivered := true } else m) }

/-- The presence registry `ChatServer.online`: account id to outbound
channel; the Bool is whether a `sendall` on that channel succeeds (False
models a broken pipe / OSError). -/
def set_online (online : List (Nat × Bool)) (user_id : Nat) (chanOk : Bool) :
    List (Nat × Bool) :=
  (user_id, chanOk) :: online.filter (fun p => !(p.1 == user_id))

/-- Models `ChatServer.send_to_user`: False when the user has no registry entry or
the write raises OSError; the entry is not removed on failure. -/
def send_to_user (online : List (Nat × Bool)) (user_id : Nat) : Bool :=
  match online.find? (fun p => p.1 == user_id) with
  | none => false
  | some p => p.2

/-- The server state a session handler sees: database plus presence
registry. -/
structure ServerState where
  db : DB
  online : List (Nat × Bool)
deriving DecidableEq

/-- A response frame as built by `format_message`: action, status
(default "ok"), message text, and the `message_id` field of send acks. -/
structure Response where
  action : String
  status : String
  message : String
  message_id : Nat
deriving DecidableEq

/-- The body of a `send_message` request. -/
structure SendReq where
  recipient_type : String
  recipient_id : Nat
  content_type : String
  content : String
deriving DecidableEq

/-- Outcome of `ClientHandler.handle_send_message`: updated state, the
acknowledged row id, and the user ids to which a live push was attempted. -/
structure SendResult where
  state : ServerState
  ack : Nat
  pushes : List Nat
deriving DecidableEq

/-- The per-member body of the group branch of `handle_send_message`:
`sent` stays False for the sender (no push back to itself), then one row is
saved with `delivered = 1 if sent or uid == sender else 0`. -/
def sendLoop (online : List (Nat × Bool)) (sid gid : Nat) (ct c : String) :
    DB → List Nat → Except Unit (DB × List Nat × List Nat)
  | db, [] => .ok (db, [], [])
  | db, uid :: rest =>
    let delivered := if uid = sid then true else send_to_user online uid
    match save_message db sid "group" gid ct c delivered with
    | .error e => .error e
    | .ok (db', mid) =>
      match sendLoop online sid gid ct c db' rest with
      | .error e => .error e
      | .ok (db'', mids, ps) =>
        .ok (db'', mid :: mids, (if uid = sid then [] else [uid]) ++ ps)

/-- Models `ClientHandler.handle_send_message` (server.py 182-238).  Direct sends
push-then-save one row; group sends loop over `get_group_members`; any
other recipient_type saves nothing and acks 0 (`message_ids` stays empty).
A storage fault propagates out of the handler uncaught. -/
def handle_send_message (st : ServerState) (u : User) (req : SendReq) :
    Except Unit SendResult :=
  if req.recipient_type = "user" then
    let sent := send_to_user st.online req.recipient_id
    match save_message st.db u.id req.recipient_type req.recipient_id
        req.content_type req.content sent with
    | .error e => .error e
    | .ok (db', mid) => .ok ⟨⟨db', st.online⟩, mid, [req.recipient_id]⟩
  else if req.recipient_type = "group" then
    match sendLoop st.online u.id req.recipient_id req.content_type
        req.content st.db (get_group_members st.db req.recipient_id) with
    | .error e => .error e
    | .ok (db', mids, ps) => .ok ⟨⟨db', st.online⟩, mids.getLastD 0, ps⟩
  else
    .ok ⟨st, 0, []⟩

/-- The response of line 238 (`send_message` ack), sent only when no
exception escaped the handler; an escaping exception ends the session
thread before any response is written. -/
def sendResponse (r : Except Unit SendResult) : Option Response :=
  match r with
  | .ok res => some ⟨"send_message", "ok", "", res.ack⟩
  | .error _ => none

/-- The offline flush performed inside `handle_login` (server.py 136-138):
fetch the undelivered messages, then mark each fetched row delivered. -/
def login_flush (db : DB) (user_id : Nat) : DB × List Msg :=
  let offline := fetch_offline_messages db user_id
  (offline.foldl (fun d m => mark_message_delivered d m.id) db, offline)

/-- Models `ClientHandler.handle_login`: authenticate; on success register in the
presence map, flush offline messages, and answer with profile, friends,
groups, and the flushed messages; on failure answer an error (`none`). -/
def handle_login (st : ServerState) (username password : String)
    (chanOk : Bool) :
    ServerState × Option (User × List User × List Group × List Msg) :=
  match authenticate st.db username password with
  | none => (st, none)
  | some u =>
    let flushed := login_flush st.db u.id
    (⟨flushed.1, set_online st.online u.id chanOk⟩,
      some (u, list_friends flushed.1 u.id, list_groups flushed.1 u.id,
        flushed.2))

/-- Models `ClientHandler.handle_create_group`. -/
def handle_create_group (st : ServerState) (uid : Nat) (name : String) :
    ServerState × Nat :=
  let r := create_group st.db uid name
  (⟨r.1, st.online⟩, r.2)

/-- Models `ClientHandler.handle_join_group`: replies status "ok" iff
`join_group` returned True (which it always does). -/
def handle_join_group (st : ServerState) (uid gid : Nat) :
    ServerState × Response :=
  let r := join_group st.db uid gid
  (⟨r.1, st.online⟩, ⟨"join_group", if r.2 then "ok" else "error", "", 0⟩)

/-- The uids `ChatServer.broadcast` writes to: every presence-registry
entry except the sender (write failures are swallowed per uid). -/
def broadcast_targets (online : List (Nat × Bool)) (sender_id : Nat) :
    List Nat :=
  (online.map (fun p => p.1)).filter (fun uid => !(uid == sender_id))

/-- Models `ClientHandler.handle_broadcast`: non-admins get the 无权限
("no permission") error; an admin's announcement is pushed to every online
account except the sender and nothing is persisted. -/
def handle_broadcast (st : ServerState) (u : User) (content : String) :
    ServerState × Response × List Nat :=
  if u.role != "admin" then
    (st, ⟨"broadcast", "error", "无权限", 0⟩, [])
  else
    (st, ⟨"broadcast", "ok", "公告已发送", 0⟩, broadcast_targets st.online u.id)

/-- The action names X for which a `handle_X` method exists on
`ClientHandler` (the `getattr(self, f"handle_{action}")` dispatch). -/
def handlerNames : List String :=
  ["register", "login", "request", "add_friend", "remove_friend",
   "list_friends", "update_profile", "create_group", "join_group",
   "leave_group", "send_message", "broadcast", "list_groups"]

/-- What `ClientHandler.handle_request` does with one parsed request. -/
inductive RouteResult where
  | respond (r : Response)
  | close
  | dispatch (name : String)
deriving DecidableEq

/-- The dispatch chain of `ClientHandler.handle_request` (server.py
106-120): register and login first, then logout (which only clears
`self.alive`), then the not-logged-in guard, then the `getattr` lookup. -/
def route (authed : Bool) (action : String) : RouteResult :=
  if action = "register" then .dispatch "register"
  else if action = "login" then .dispatch "login"
  else if action = "logout" then .close
  else if authed = false then .respond ⟨"auth", "error", "请先登录", 0⟩
  else if handlerNames.contains action then .dispatch action
  else .respond ⟨"error", "error", "未知指令", 0⟩

/-- Whether the session read loop keeps running after the route outcome
(`self.alive`); `.close` is the logout path setting it False, after which
the connection is torn down by `cleanup`. -/
def aliveAfter : RouteResult → Bool
  | .close => false
  | _ => true

/-- One database mutation, closing the persistence interface used by the
server; `applyOps` runs an arbitrary future. -/
inductive DBOp where
  | regOp (u p n : String)
  | updateProfileOp (uid : Nat) (nick av sig : Option String)
  | addFriendOp (uid : Nat) (fname : String)
  | removeFriendOp (uid fid : Nat)
  | createGroupOp (oid : Nat) (name : String)
  | joinGroupOp (uid gid : Nat)
  | leaveGroupOp (uid gid : Nat)
  | saveOp (sid : Nat) (rt : String) (rid : Nat) (ct c : String) (d : Bool)
  | markOp (mid : Nat)

/-- Apply one persistence operation (a faulting save leaves the database
unchanged, as the INSERT never executed). -/
def applyOp (db : DB) : DBOp → DB
  | .regOp u p n => (register_user db u p n).1
  | .updateProfileOp uid nk av sg => update_profile db uid nk av sg
  | .addFriendOp uid f => (add_friend db uid f).1
  | .removeFriendOp a b => remove_friend db a b
  | .createGroupOp o n => (create_group db o n).1
  | .joinGroupOp u g => (join_group db u g).1
  | .leaveGroupOp u g => leave_group db u g
  | .saveOp s rt rid ct c d =>
    match save_message db s rt rid ct c d with
    | .ok r => r.1
    | .error _ => db
  | .markOp m => mark_message_delivered db m

/-- Run a sequence of persistence operations. -/
def applyOps (db : DB) (ops : List DBOp) : DB := ops.foldl applyOp db

/-- Well-formedness maintained by the sqlite schema: AUTOINCREMENT ids of
messages are below the counter and pairwise distinct. -/
def WF (db : DB) : Prop :=
  (∀ m ∈ db.messages, m.id < db.nextMsgId) ∧
    (db.messages.map (fun m => m.id)).Nodup

/-- Message id `i` exists only delivered from here on: below the id
counter, and every row carrying it has the flag set. -/
def deliveredAt (db : DB) (i : Nat) : Prop :=
  i < db.nextMsgId ∧ ∀ m ∈ db.messages, m.id = i → m.delivered = true

/-- The row the group branch persists for member `m` with row id `mid`:
delivered iff `m` is the sender or the live push to `m` succeeded. -/
def memberRow (online : List (Nat × Bool)) (sid gid : Nat) (ct c : String)
    (mid m : Nat) : Msg :=
  ⟨mid, sid, "group", gid, ct, c, mid,
    if m = sid then true else send_to_user online m⟩

/-- The block of rows a fault-free group send appends, one per member, at
consecutive ids starting from `start`. -/
def groupRows (online : List (Nat × Bool)) (sid gid : Nat) (ct c : String) :
    Nat → List Nat → List Msg
  | _, [] => []
  | start, m :: rest =>
    memberRow online sid gid ct c start m ::
      groupRows online sid gid ct c (start + 1) rest

/-- The row a fault-free direct send persists: addressed to user `R`,
delivered iff the live push (`send_to_user`) succeeded. -/
def directRow (st : ServerState) (uid R : Nat) (ct c : String) : Msg :=
  ⟨st.db.nextMsgId, uid, "user", R, ct, c, st.db.nextMsgId,
    send_to_user st.online R⟩

/-- The database after a fault-free direct send. -/
def directDB (st : ServerState) (uid R : Nat) (ct c : String) : DB :=
  { st.db with
      messages := st.db.messages ++ [directRow st uid R ct c],
      nextMsgId := st.db.nextMsgId + 1,
      saveFaults := st.db.saveFaults.tail }

/-- The database after a fault-free group send: one appended row per
member of the group. -/
def groupDB (st : ServerState) (sid gid : Nat) (ct c : String) : DB :=
  { st.db with
      messages := st.db.messages ++
        groupRows st.online sid gid ct c st.db.nextMsgId
          (get_group_members st.db gid),
      nextMsgId := st.db.nextMsgId + (get_group_members st.db gid).length }

/-- The freshly initialised database (empty tables, counters at 1, no
scheduled storage fault). -/
def db0 : DB := ⟨[], 1, [], [], 1, [], [], 1, []⟩

/-- The account row registration gives alice in the end-to-end scenario. -/
def aliceU : User := ⟨1, "alice", "pw", "alice", none, none, "user"⟩

/-- End-to-end scenario, step 1: alice registers on the fresh database. -/
def scnDb1 : DB := (register_user db0 "alice" "pw" "alice").1

/-- Step 2: alice logs in (live channel), entering the presence map. -/
def scnSt1 : ServerState := (handle_login ⟨scnDb1, []⟩ "alice" "pw" true).1

/-- Step 3: alice creates group g1 (id 1) and becomes its sole member. -/
def scnCreate : ServerState × Nat := handle_create_group scnSt1 1 "g1"

/-- Step 4: alice sends a text message to g1. -/
def scnSend : Except Unit SendResult :=
  handle_send_message scnCreate.1 aliceU ⟨"group", 1, "text", "hi"⟩

/-- The server state after alice's group send. -/
def scnSt2 : ServerState :=
  (scnSend.toOption.getD ⟨scnCreate.1, 0, []⟩).state

/-- Step 5: bob registers (account id 2). -/
def scnDb3 : DB := (register_user scnSt2.db "bob" "pw" "bob").1

/-- Step 6: bob joins g1, after the send. -/
def scnDb4 : DB := (join_group scnDb3 2 1).1

/-- Step 7: bob's next login, carrying his offline_messages flush. -/
def scnBobLogin :
    ServerState × Option (User × List User × List Group × List Msg) :=
  handle_login ⟨scnDb4, scnSt2.online⟩ "bob" "pw" true

/-- A server state whose next `save_message` raises a storage fault. -/
def stFault : ServerState := ⟨{ db0 with saveFaults := [true] }, []⟩

/-- A second registered account, used by the concrete witnesses. -/
def bobU : User := ⟨2, "bob", "pw", "bob", none, none, "user"⟩

/-- A third registered account, used by the concrete witnesses. -/
def carolU : User := ⟨3, "carol", "pw", "carol", none, none, "user"⟩

/-- Witness state for the direct-send claim: alice and bob registered,
nobody online (so bob is an offline recipient). -/
def stW2 : ServerState := ⟨⟨[aliceU, bobU], 3, [], [], 1, [], [], 1, []⟩, []⟩

/-- Witness state for the group-send claims: group 1 with members alice,
bob and carol; only the sender alice is online. -/
def stW3 : ServerState :=
  ⟨⟨[aliceU, bobU, carolU], 4, [], [⟨1, "g", 1⟩], 2, [(1, 1), (1, 2), (1, 3)],
     [], 1, []⟩, [(1, true)]⟩

/-- Witness database for the friendship claim: alice and bob registered,
no friendships yet. -/
def dbW8 : DB := ⟨[aliceU, bobU], 3, [], [], 1, [], [], 1, []⟩

/-- The default admin account seeded by `bootstrap_default_admin`. -/
def adminU : User := ⟨9, "admin", "admin", "校园管理员", none, none, "admin"⟩

/-- Witness state for the broadcast claim: users 1, 2 and the admin 9 all
online. -/
def stW9 : ServerState := ⟨dbW8, [(1, true), (2, true), (9, true)]⟩

/-- Witness state for the join-group claim: one undelivered message
addressed to group 7, for which no groups row exists. -/
def stW10 : ServerState :=
  ⟨⟨[], 1, [], [], 1, [], [⟨1, 1, "group", 7, "text", "hi", 1, false⟩], 2, []⟩,
    []⟩

theorem mem_insertByKey {α : Type} (key : α → String) (x a : α)
    (l : List α) : a ∈ insertByKey key x l ↔ a = x ∨ a ∈ l := by
  induction l with
  | nil => simp [insertByKey]
  | cons y ys ih =>
    simp only [insertByKey]
    split
    · simp
    · simp only [List.mem_cons, ih]
      tauto

theorem mem_sortByKey {α : Type} (key : α → String) (a : α) (l : List α) :
    a ∈ sortByKey key l ↔ a ∈ l := by
  induction l with
  | nil => simp [sortByKey]
  | cons y ys ih =>
    simp only [sortByKey, List.foldr_cons] at *
    rw [mem_insertByKey, ih, List.mem_cons]

theorem groupRows_length (online : List (Nat × Bool)) (sid gid : Nat)
    (ct c : String) :
    ∀ (ms : List Nat) (start : Nat),
      (groupRows online sid gid ct c start ms).length = ms.length := by
  intro ms
  induction ms with
  | nil => intro start; simp [groupRows]
  | cons m rest ih => intro start; simp [groupRows, ih]

theorem groupRows_get (online : List (Nat × Bool)) (sid gid : Nat)
    (ct c : String) :
    ∀ (ms : List Nat) (start i : Nat)
      (h1 : i < (groupRows online sid gid ct c start ms).length)
      (h2 : i < ms.length),
      (groupRows online sid gid ct c start ms).get ⟨i, h1⟩ =
        memberRow online sid gid ct c (start + i) (ms.get ⟨i, h2⟩) := by
  intro ms
  induction ms with
  | nil => intro start i h1 h2; simp at h2
  | cons m rest ih =>
    intro start i h1 h2
    cases i with
    | zero => simp [groupRows]
    | succ j =>
      have hl : j < (groupRows online sid gid ct c (start + 1) rest).length := by
        simpa [groupRows] using h1
      have hr : j < rest.length := by simpa using h2
      simp only [groupRows, List.get_cons_succ]
      rw [ih (start + 1) j hl hr]
      have : start + 1 + j = start + (j + 1) := by omega
      rw [this]

theorem groupRows_shape (online : List (Nat × Bool)) (sid gid : Nat)
    (ct c : String) :
    ∀ (ms : List Nat) (start : Nat) (r : Msg),
      r ∈ groupRows online sid gid ct c start ms →
      r.sender_id = sid ∧ r.recipient_type = "group" ∧
        r.recipient_id = gid ∧ r.content_type = ct ∧ r.content = c := by
  intro ms
  induction ms with
  | nil => intro start r h; simp [groupRows] at h
  | cons m rest ih =>
    intro start r h
    simp only [groupRows, List.mem_cons] at h
    rcases h with h | h
    · subst h; simp [memberRow]
    · exact ih (start + 1) r h

theorem sendLoop_ok (online : List (Nat × Bool)) (sid gid : Nat)
    (ct c : String) :
    ∀ (ms : List Nat) (db : DB), db.saveFaults = [] →
      sendLoop online sid gid ct c db ms =
        .ok ({ db with
            messages := db.messages ++
              groupRows online sid gid ct c db.nextMsgId ms,
            nextMsgId := db.nextMsgId + ms.length },
          List.range' db.nextMsgId ms.length,
          ms.filter (fun m => !(m == sid))) := by
  intro ms
  induction ms with
  | nil => intro db h; simp [sendLoop, groupRows]
  | cons uid rest ih =>
    intro db h
    have hnf : (save_message db sid "group" gid ct c
        (if uid = sid then true else send_to_user online uid)) =
        .ok ({ db with
            messages := db.messages ++
              [memberRow online sid gid ct c db.nextMsgId uid],
            nextMsgId := db.nextMsgId + 1,
            saveFaults := [] }, db.nextMsgId) := by
      simp [save_message, h, memberRow]
    simp only [sendLoop, hnf]
    rw [ih _ (by simp)]
    simp only [Except.ok.injEq, Prod.mk.injEq, DB.mk.injEq, groupRows,
      List.range'_succ, List.filter_cons, h, List.append_assoc,
      List.length_cons, true_and, and_true]
    constructor
    · constructor
      · simp
      · omega
    · by_cases hu : uid = sid <;> simp [hu]

theorem range'_getLastD :
    ∀ (k n d : Nat), (List.range' n (k + 1)).getLastD d = n + k := by
  intro k
  induction k with
  | zero => intro n d; simp [List.range'_succ]
  | succ j ih =>
    intro n d
    rw [List.range'_succ, List.getLastD_cons, ih (n + 1) n]
    omega

theorem mem_user_groups (db : DB) (g m : Nat)
    (h : m ∈ get_group_members db g) :
    (user_groups db m).contains g = true := by
  simp only [get_group_members, List.mem_map, List.mem_filter] at h
  obtain ⟨p, ⟨hp, hg⟩, hm⟩ := h
  simp only [user_groups, List.contains_eq_any_beq, List.any_eq_true,
    List.mem_map, List.mem_filter]
  refine ⟨p.1, ⟨p, ⟨hp, by simp [hm]⟩, rfl⟩, by simp at hg; simp [hg]⟩

theorem deliveredAt_of_eq (db db' : DB) (i : Nat)
    (hm : db'.messages = db.messages) (hn : db'.nextMsgId = db.nextMsgId)
    (h : deliveredAt db i) : deliveredAt db' i :=
  ⟨hn ▸ h.1, fun m hm2 hid => h.2 m (hm ▸ hm2) hid⟩

theorem deliveredAt_mark_self (db : DB) (i : Nat) (h : i < db.nextMsgId) :
    deliveredAt (mark_message_delivered db i) i := by
  refine ⟨h, ?_⟩
  intro m hm hid
  simp only [mark_message_delivered, List.mem_map] at hm
  obtain ⟨m0, hm0, hme⟩ := hm
  by_cases h0 : m0.id = i
  · simp only [h0, if_pos rfl] at hme
    subst hme
    rfl
  · rw [if_neg h0] at hme
    subst hme
    exact absurd hid h0

theorem deliveredAt_mark (db : DB) (i j : Nat) (h : deliveredAt db i) :
    deliveredAt (mark_message_delivered db j) i := by
  refine ⟨h.1, ?_⟩
  intro m hm hid
  simp only [mark_message_delivered, List.mem_map] at hm
  obtain ⟨m0, hm0, hme⟩ := hm
  by_cases h0 : m0.id = j
  · rw [if_pos h0] at hme
    subst hme
    rfl
  · rw [if_neg h0] at hme
    subst hme
    exact h.2 m0 hm0 hid

theorem deliveredAt_foldMark_mono (L : List Msg) :
    ∀ (db : DB) (i : Nat), deliveredAt db i →
      deliveredAt (L.foldl (fun d m => mark_message_delivered d m.id) db) i := by
  induction L with
  | nil => intro db i h; simpa using h
  | cons m L ih =>
    intro db i h
    simp only [List.foldl_cons]
    exact ih _ _ (deliveredAt_mark _ _ _ h)

theorem deliveredAt_flush (L : List Msg) :
    ∀ (db : DB) (i : Nat), i < db.nextMsgId → (∃ m ∈ L, m.id = i) →
      deliveredAt (L.foldl (fun d m => mark_message_delivered d m.id) db) i := by
  induction L with
  | nil => intro db i hlt hm; simp at hm
  | cons m L ih =>
    intro db i hlt hm
    simp only [List.foldl_cons]
    rcases hm with ⟨m0, hm0, hid⟩
    rcases List.mem_cons.mp hm0 with h0 | h0
    · subst h0
      rw [hid]
      exact deliveredAt_foldMark_mono L _ i (deliveredAt_mark_self db i hlt)
    · exact ih _ i hlt ⟨m0, h0, hid⟩

theorem not_mem_fetch_of_deliveredAt (db : DB) (i : Nat)
    (h : deliveredAt db i) (v : Nat) :
    i ∉ (fetch_offline_messages db v).map (fun m => m.id) := by
  intro hmem
  simp only [List.mem_map, fetch_offline_messages, List.mem_filter] at hmem
  obtain ⟨m, ⟨hm, hp⟩, hid⟩ := hmem
  have hd := h.2 m hm hid
  simp [hd] at hp

theorem add_friend_untouched (db : DB) (uid : Nat) (f : String) :
    (add_friend db uid f).1.messages = db.messages ∧
      (add_friend db uid f).1.nextMsgId = db.nextMsgId := by
  unfold add_friend
  split
  · exact ⟨rfl, rfl⟩
  · split
    · exact ⟨rfl, rfl⟩
    · split
      · exact ⟨rfl, rfl⟩
      · exact ⟨rfl, rfl⟩

theorem deliveredAt_applyOp (db : DB) (i : Nat) (op : DBOp)
    (h : deliveredAt db i) : deliveredAt (applyOp db op) i := by
  cases op with
  | regOp u p n =>
    simp only [applyOp]
    refine deliveredAt_of_eq db _ i ?_ ?_ h <;>
      (unfold register_user; split <;> rfl)
  | updateProfileOp uid nk av sg =>
    simp only [applyOp]
    exact deliveredAt_of_eq db _ i rfl rfl h
  | addFriendOp uid f =>
    simp only [applyOp]
    exact deliveredAt_of_eq db _ i (add_friend_untouched db uid f).1
      (add_friend_untouched db uid f).2 h
  | removeFriendOp a b =>
    simp only [applyOp]
    exact deliveredAt_of_eq db _ i rfl rfl h
  | createGroupOp o nm =>
    simp only [applyOp, create_group]
    refine deliveredAt_of_eq db _ i ?_ ?_ h <;> (split <;> rfl)
  | joinGroupOp u g =>
    simp only [applyOp, join_group]
    refine deliveredAt_of_eq db _ i ?_ ?_ h <;> (split <;> rfl)
  | leaveGroupOp u g =>
    simp only [applyOp]
    exact deliveredAt_of_eq db _ i rfl rfl h
  | markOp m =>
    simp only [applyOp]
    exact deliveredAt_mark db i m h
  | saveOp s rt rid ct c d =>
    simp only [applyOp, save_message]
    cases hf : db.saveFaults.headD false with
    | true =>
      simpa using h
    | false =>
      simp only [Bool.false_eq_true, if_false]
      refine ⟨Nat.lt_succ_of_lt h.1, ?_⟩
      intro m hm hid
      rcases List.mem_append.mp hm with hm | hm
      · exact h.2 m hm hid
      · simp only [List.mem_singleton] at hm
        subst hm
        exact absurd hid (Nat.ne_of_lt h.1).symm

theorem deliveredAt_applyOps (ops : List DBOp) :
    ∀ (db : DB) (i : Nat), deliveredAt db i →
      deliveredAt (applyOps db ops) i := by
  induction ops with
  | nil => intro db i h; simpa [applyOps] using h
  | cons op ops ih =>
    intro db i h
    simp only [applyOps, List.foldl_cons]
    exact ih _ _ (deliveredAt_applyOp db i op h)
theorem handle_send_user (st : ServerState) (u : User) (R : Nat)
    (ct c : String) (hnf : st.db.saveFaults = []) :
    handle_send_message st u ⟨"user", R, ct, c⟩ =
      .ok ⟨⟨directDB st u.id R ct c, st.online⟩, st.db.nextMsgId, [R]⟩ := by
  simp [handle_send_message, save_message, hnf, directDB, directRow]

theorem fetch_ids_nodup (st : ServerState) (u : User) (R : Nat)
    (ct c : String) (hwf : WF st.db) (v : Nat) :
    ((fetch_offline_messages (directDB st u.id R ct c) v).map
      (fun m => m.id)).Nodup := by
  have hsub : (fetch_offline_messages (directDB st u.id R ct c) v).Sublist
      (directDB st u.id R ct c).messages := List.filter_sublist _
  have hmap := hsub.map (fun m => m.id)
  refine hmap.nodup ?_
  have : (directDB st u.id R ct c).messages.map (fun m => m.id) =
      st.db.messages.map (fun m => m.id) ++ [st.db.nextMsgId] := by
    simp [directDB, directRow]
  rw [this, List.nodup_append]
  refine ⟨hwf.2, List.nodup_singleton _, ?_⟩
  intro a ha hb
  simp only [List.mem_singleton] at hb
  subst hb
  simp only [List.mem_map] at ha
  obtain ⟨m, hm, hid⟩ := ha
  exact absurd hid (Nat.ne_of_lt (hwf.1 m hm))
/-- C2: for a direct (recipient_type "user") send under a fault-free store:
exactly one row is persisted, with delivered equal to the outcome of the
live push; if the recipient was online (accepting channel) the new row id
is absent from the recipient's next fetch_offline_messages; if offline, the
row appears exactly once in the next fetch and in the next login's offline
flush, is then marked delivered, and never reappears in any later fetch
after any sequence of further persistence operations. -/
theorem direct_send_delivery (st : ServerState) (u : User) (R : Nat)
    (ct c : String) (hwf : WF st.db) (hnf : st.db.saveFaults = []) :
    handle_send_message st u ⟨"user", R, ct, c⟩ =
      .ok ⟨⟨directDB st u.id R ct c, st.online⟩, st.db.nextMsgId, [R]⟩ ∧
    (directDB st u.id R ct c).messages =
      st.db.messages ++ [directRow st u.id R ct c] ∧
    (directRow st u.id R ct c).delivered = send_to_user st.online R ∧
    (send_to_user st.online R = true →
      st.db.nextMsgId ∉
        (fetch_offline_messages (directDB st u.id R ct c) R).map
          (fun m => m.id)) ∧
    (send_to_user st.online R = false →
      ((fetch_offline_messages (directDB st u.id R ct c) R).map
          (fun m => m.id)).count st.db.nextMsgId = 1 ∧
      ((login_flush (directDB st u.id R ct c) R).2.map
          (fun m => m.id)).count st.db.nextMsgId = 1 ∧
      deliveredAt (login_flush (directDB st u.id R ct c) R).1 st.db.nextMsgId ∧
      (∀ (ops : List DBOp) (v : Nat),
        st.db.nextMsgId ∉
          (fetch_offline_messages
            (applyOps (login_flush (directDB st u.id R ct c) R).1 ops) v).map
            (fun m => m.id))) := by
  refine ⟨handle_send_user st u R ct c hnf, rfl, rfl, ?_, ?_⟩
  · intro hon hmem
    simp only [List.mem_map] at hmem
    obtain ⟨m, hm, hid⟩ := hmem
    have hm2 := List.mem_filter.mp hm
    rcases List.mem_append.mp hm2.1 with hold | hnew
    · exact absurd hid (Nat.ne_of_lt (hwf.1 m hold))
    · have : m = directRow st u.id R ct c := List.mem_singleton.mp hnew
      subst this
      have := hm2.2
      simp [directRow, hon] at this
  · intro hoff
    have hrow : directRow st u.id R ct c ∈
        fetch_offline_messages (directDB st u.id R ct c) R := by
      refine List.mem_filter.mpr ⟨List.mem_append_right _ (List.mem_singleton.mpr rfl), ?_⟩
      simp [directRow, hoff]
    have hmem : st.db.nextMsgId ∈
        (fetch_offline_messages (directDB st u.id R ct c) R).map
          (fun m => m.id) :=
      List.mem_map.mpr ⟨directRow st u.id R ct c, hrow, rfl⟩
    have hcount := List.count_eq_one_of_mem
      (fetch_ids_nodup st u R ct c hwf R) hmem
    have hflush : deliveredAt (login_flush (directDB st u.id R ct c) R).1
        st.db.nextMsgId := by
      refine deliveredAt_flush _ _ _ ?_ ⟨directRow st u.id R ct c, hrow, rfl⟩
      exact Nat.lt_succ_self _
    refine ⟨hcount, hcount, hflush, ?_⟩
    intro ops v
    exact not_mem_fetch_of_deliveredAt _ _
      (deliveredAt_applyOps ops _ _ hflush) v

/-- C2 witness: concrete offline direct send from alice to bob. -/
theorem direct_send_delivery_witness :
    handle_send_message stW2 aliceU ⟨"user", 2, "text", "hi"⟩ =
      .ok ⟨⟨directDB stW2 aliceU.id 2 "text" "hi", stW2.online⟩, 1, [2]⟩ :=
  (direct_send_delivery stW2 aliceU 2 "text" "hi"
    ⟨by simp [stW2], by simp [stW2]⟩ rfl).1
theorem handle_send_group (st : ServerState) (u : User) (gid : Nat)
    (ct c : String) (hnf : st.db.saveFaults = []) :
    handle_send_message st u ⟨"group", gid, ct, c⟩ =
      .ok ⟨⟨groupDB st u.id gid ct c, st.online⟩,
        (List.range' st.db.nextMsgId
          (get_group_members st.db gid).length).getLastD 0,
        (get_group_members st.db gid).filter (fun m => !(m == u.id))⟩ := by
  have h := sendLoop_ok st.online u.id gid ct c
    (get_group_members st.db gid) st.db hnf
  simp [handle_send_message, h, groupDB]

/-- C3: a group send under a fault-free store resolves the member list,
persists exactly one row per member (in member-list order, at consecutive
ids), the i-th row being `memberRow` for the i-th member — delivered true
for the sender's own row and for members whose live push succeeded, false
otherwise — attempts a live push exactly for the members other than the
sender, and acknowledges the id of the last-created row. -/
theorem group_send_fanout (st : ServerState) (u : User) (gid : Nat)
    (ct c : String) (hnf : st.db.saveFaults = []) :
    handle_send_message st u ⟨"group", gid, ct, c⟩ =
      .ok ⟨⟨groupDB st u.id gid ct c, st.online⟩,
        (List.range' st.db.nextMsgId
          (get_group_members st.db gid).length).getLastD 0,
        (get_group_members st.db gid).filter (fun m => !(m == u.id))⟩ ∧
    (groupDB st u.id gid ct c).messages =
      st.db.messages ++ groupRows st.online u.id gid ct c st.db.nextMsgId
        (get_group_members st.db gid) ∧
    (groupRows st.online u.id gid ct c st.db.nextMsgId
      (get_group_members st.db gid)).length =
        (get_group_members st.db gid).length ∧
    (∀ (i : Nat)
      (h1 : i < (groupRows st.online u.id gid ct c st.db.nextMsgId
        (get_group_members st.db gid)).length)
      (h2 : i < (get_group_members st.db gid).length),
      (groupRows st.online u.id gid ct c st.db.nextMsgId
        (get_group_members st.db gid)).get ⟨i, h1⟩ =
        memberRow st.online u.id gid ct c (st.db.nextMsgId + i)
          ((get_group_members st.db gid).get ⟨i, h2⟩)) ∧
    (get_group_members st.db gid ≠ [] →
      (List.range' st.db.nextMsgId
        (get_group_members st.db gid).length).getLastD 0 =
          st.db.nextMsgId + (get_group_members st.db gid).length - 1) := by
  refine ⟨handle_send_group st u gid ct c hnf, rfl,
    groupRows_length st.online u.id gid ct c _ _,
    fun i h1 h2 => groupRows_get st.online u.id gid ct c _ _ i h1 h2, ?_⟩
  intro hne
  cases hms : get_group_members st.db gid with
  | nil => exact absurd hms hne
  | cons m rest =>
    rw [List.length_cons, range'_getLastD]
    omega

/-- C3 witness: alice sends to group 1 of stW3 (members alice, bob, carol;
bob and carol offline). -/
theorem group_send_fanout_witness :
    handle_send_message stW3 aliceU ⟨"group", 1, "text", "hi"⟩ =
      .ok ⟨⟨groupDB stW3 aliceU.id 1 "text" "hi", stW3.online⟩,
        (List.range' stW3.db.nextMsgId
          (get_group_members stW3.db 1).length).getLastD 0,
        (get_group_members stW3.db 1).filter (fun m => !(m == aliceU.id))⟩ :=
  (group_send_fanout stW3 aliceU 1 "text" "hi" rfl).1
/-- C6: when a group message is sent while two distinct non-sender members
are both offline, one independent row per member is persisted (all with the
same content, addressed to the group id), and the reconnecting member m1
finds two rows with the same content under different persisted ids in the
offline fetch. -/
theorem group_send_offline_copies (st : ServerState) (u : User)
    (gid m1 m2 : Nat) (ct c : String) (hnf : st.db.saveFaults = [])
    (h1 : m1 ∈ get_group_members st.db gid)
    (h2 : m2 ∈ get_group_members st.db gid)
    (hne : m1 ≠ m2) (h1s : m1 ≠ u.id) (h2s : m2 ≠ u.id)
    (off1 : send_to_user st.online m1 = false)
    (off2 : send_to_user st.online m2 = false) :
    handle_send_message st u ⟨"group", gid, ct, c⟩ =
      .ok ⟨⟨groupDB st u.id gid ct c, st.online⟩,
        (List.range' st.db.nextMsgId
          (get_group_members st.db gid).length).getLastD 0,
        (get_group_members st.db gid).filter (fun m => !(m == u.id))⟩ ∧
    (∀ r ∈ groupRows st.online u.id gid ct c st.db.nextMsgId
        (get_group_members st.db gid),
      r.sender_id = u.id ∧ r.recipient_type = "group" ∧
        r.recipient_id = gid ∧ r.content_type = ct ∧ r.content = c) ∧
    (∃ a b,
      a ∈ fetch_offline_messages (groupDB st u.id gid ct c) m1 ∧
      b ∈ fetch_offline_messages (groupDB st u.id gid ct c) m1 ∧
      a.id ≠ b.id ∧ a.content = c ∧ b.content = c ∧
      a.recipient_type = "group" ∧ b.recipient_type = "group" ∧
      a.recipient_id = gid ∧ b.recipient_id = gid ∧
      a.delivered = false ∧ b.delivered = false) := by
  refine ⟨handle_send_group st u gid ct c hnf,
    fun r hr => groupRows_shape st.online u.id gid ct c _ _ r hr, ?_⟩
  obtain ⟨i, hi, hgi⟩ := List.getElem_of_mem h1
  obtain ⟨j, hj, hgj⟩ := List.getElem_of_mem h2
  have hij : i ≠ j := by
    intro e
    subst e
    rw [hgi] at hgj
    exact hne hgj
  have hleni : i < (groupRows st.online u.id gid ct c st.db.nextMsgId
      (get_group_members st.db gid)).length := by
    rw [groupRows_length]; exact hi
  have hlenj : j < (groupRows st.online u.id gid ct c st.db.nextMsgId
      (get_group_members st.db gid)).length := by
    rw [groupRows_length]; exact hj
  have hmema : memberRow st.online u.id gid ct c (st.db.nextMsgId + i) m1 ∈
      groupRows st.online u.id gid ct c st.db.nextMsgId
        (get_group_members st.db gid) := by
    have hget := groupRows_get st.online u.id gid ct c
      (get_group_members st.db gid) st.db.nextMsgId i hleni hi
    have hv : (get_group_members st.db gid).get ⟨i, hi⟩ = m1 := by
      simpa using hgi
    rw [hv] at hget
    rw [← hget]
    exact List.get_mem _ _ _
  have hmemb : memberRow st.online u.id gid ct c (st.db.nextMsgId + j) m2 ∈
      groupRows st.online u.id gid ct c st.db.nextMsgId
        (get_group_members st.db gid) := by
    have hget := groupRows_get st.online u.id gid ct c
      (get_group_members st.db gid) st.db.nextMsgId j hlenj hj
    have hv : (get_group_members st.db gid).get ⟨j, hj⟩ = m2 := by
      simpa using hgj
    rw [hv] at hget
    rw [← hget]
    exact List.get_mem _ _ _
  have hWmem : gid ∈ user_groups st.db m1 := by
    have := mem_user_groups st.db gid m1 h1
    simpa using this
  have hWmem2 : gid ∈ user_groups (groupDB st u.id gid ct c) m1 := hWmem
  have hfa : memberRow st.online u.id gid ct c (st.db.nextMsgId + i) m1 ∈
      fetch_offline_messages (groupDB st u.id gid ct c) m1 := by
    refine List.mem_filter.mpr ⟨List.mem_append_right _ hmema, ?_⟩
    simp [memberRow, h1s, off1]
    exact hWmem2
  have hfb : memberRow st.online u.id gid ct c (st.db.nextMsgId + j) m2 ∈
      fetch_offline_messages (groupDB st u.id gid ct c) m1 := by
    refine List.mem_filter.mpr ⟨List.mem_append_right _ hmemb, ?_⟩
    simp [memberRow, h2s, off2]
    exact hWmem2
  refine ⟨memberRow st.online u.id gid ct c (st.db.nextMsgId + i) m1,
    memberRow st.online u.id gid ct c (st.db.nextMsgId + j) m2,
    hfa, hfb, ?_, rfl, rfl, rfl, rfl, rfl, rfl, ?_, ?_⟩
  · simp only [memberRow]
    omega
  · simp [memberRow, h1s, off1]
  · simp [memberRow, h2s, off2]

/-- C6 witness: in stW3 both bob (2) and carol (3) are offline members;
bob's offline fetch holds two same-content rows with different ids. -/
theorem group_send_offline_copies_witness :
    ∃ a b,
      a ∈ fetch_offline_messages (groupDB stW3 aliceU.id 1 "text" "hi") 2 ∧
      b ∈ fetch_offline_messages (groupDB stW3 aliceU.id 1 "text" "hi") 2 ∧
      a.id ≠ b.id ∧ a.content = "hi" ∧ b.content = "hi" ∧
      a.recipient_type = "group" ∧ b.recipient_type = "group" ∧
      a.recipient_id = 1 ∧ b.recipient_id = 1 ∧
      a.delivered = false ∧ b.delivered = false :=
  (group_send_offline_copies stW3 aliceU 1 2 3 "text" "hi" rfl
    (by decide) (by decide) (by decide) (by decide) (by decide)
    rfl rfl).2.2
/-- C7: with a fresh username, register succeeds and a login with the same
credentials authenticates as the newly created account; a second register
with the same username fails with the duplicate-username error regardless
of password, leaving the store unchanged. -/
theorem register_then_login (db : DB) (u p n p2 n2 : String)
    (h : ∀ v ∈ db.users, v.username ≠ u) :
    (register_user db u p n).2 = (true, "注册成功") ∧
    authenticate (register_user db u p n).1 u p =
      some ⟨db.nextUserId, u, p, n, none, none, "user"⟩ ∧
    (register_user (register_user db u p n).1 u p2 n2).2 =
      (false, "用户名已存在") ∧
    (register_user (register_user db u p n).1 u p2 n2).1 =
      (register_user db u p n).1 := by
  have hany : (db.users.any (fun v => v.username == u)) = false := by
    rw [List.any_eq_false]
    intro v hv
    simp [h v hv]
  have hreg : register_user db u p n =
      ({ db with
          users := db.users ++ [⟨db.nextUserId, u, p, n, none, none, "user"⟩],
          nextUserId := db.nextUserId + 1 }, true, "注册成功") := by
    simp [register_user, hany]
  have hfind : db.users.find?
      (fun v => v.username == u && v.password == p) = none := by
    rw [List.find?_eq_none]
    intro v hv
    simp [h v hv]
  have hdup : ∀ (d : DB), (d.users.any (fun v => v.username == u)) = true →
      register_user d u p2 n2 = (d, false, "用户名已存在") := by
    intro d hh
    simp [register_user, hh]
  refine ⟨by rw [hreg], ?_, ?_, ?_⟩
  · rw [hreg]
    simp [authenticate, List.find?_append, hfind]
  · rw [hreg]
    dsimp only
    rw [hdup _ (by simp)]
  · rw [hreg]
    dsimp only
    rw [hdup _ (by simp)]

/-- C7 witness: alice registers on the fresh database and authenticates. -/
theorem register_then_login_witness :
    authenticate (register_user db0 "alice" "pw" "alice").1 "alice" "pw" =
      some ⟨1, "alice", "pw", "alice", none, none, "user"⟩ :=
  (register_then_login db0 "alice" "pw" "alice" "other" "n2"
    (by simp [db0])).2.1

/-- C8: when B's username resolves, A ≠ B, and the pair is not yet present,
add_friend(A, B) succeeds and inserts the symmetric pair, so B appears in
A's friend list and A in B's; a repeated add_friend fails with the
already-friends error, and self-friending fails with the cannot-add-self
error. -/
theorem friendship_symmetric (db : DB) (A B : User)
    (hAu : db.users.find? (fun v => v.username == A.username) = some A)
    (hBu : db.users.find? (fun v => v.username == B.username) = some B)
    (hAid : db.users.find? (fun v => v.id == A.id) = some A)
    (hBid : db.users.find? (fun v => v.id == B.id) = some B)
    (hne : A.id ≠ B.id)
    (hp1 : (A.id, B.id) ∉ db.friends) (hp2 : (B.id, A.id) ∉ db.friends) :
    (add_friend db A.id B.username).2 = (true, "已添加") ∧
    B ∈ list_friends (add_friend db A.id B.username).1 A.id ∧
    A ∈ list_friends (add_friend db A.id B.username).1 B.id ∧
    (add_friend (add_friend db A.id B.username).1 A.id B.username).2 =
      (false, "已在好友列表") ∧
    (add_friend db A.id A.username).2 = (false, "不能添加自己") := by
  have hBA : B.id ≠ A.id := fun e => hne e.symm
  have hadd : add_friend db A.id B.username =
      ({ db with friends := db.friends ++ [(A.id, B.id), (B.id, A.id)] },
        true, "已添加") := by
    simp only [add_friend, hBu]
    rw [if_neg hBA, if_neg (not_or.mpr ⟨hp1, hp2⟩)]
  refine ⟨by rw [hadd], ?_, ?_, ?_, ?_⟩
  · rw [hadd]
    rw [list_friends, mem_sortByKey, List.mem_filterMap]
    refine ⟨(A.id, B.id), List.mem_filter.mpr ⟨?_, by simp⟩, hBid⟩
    exact List.mem_append_right _ (List.mem_cons_self _ _)
  · rw [hadd]
    rw [list_friends, mem_sortByKey, List.mem_filterMap]
    refine ⟨(B.id, A.id), List.mem_filter.mpr ⟨?_, by simp⟩, hAid⟩
    refine List.mem_append_right _ ?_
    exact List.mem_cons_of_mem _ (List.mem_cons_self _ _)
  · rw [hadd]
    have hBu2 : (({ db with
        friends := db.friends ++ [(A.id, B.id), (B.id, A.id)] } : DB)).users.find?
        (fun v => v.username == B.username) = some B := hBu
    simp only [add_friend, hBu2]
    rw [if_neg hBA, if_pos (Or.inl (List.mem_append_right _
      (List.mem_cons_self _ _)))]
  · simp only [add_friend, hAu]
    simp

/-- C8 witness: alice adds bob in dbW8 and bob shows in alice's list. -/
theorem friendship_symmetric_witness :
    bobU ∈ list_friends (add_friend dbW8 aliceU.id bobU.username).1
      aliceU.id :=
  (friendship_symmetric dbW8 aliceU bobU rfl rfl rfl rfl (by decide)
    (by decide) (by decide)).2.1
theorem join_group_messages (db : DB) (uid gid : Nat) :
    (join_group db uid gid).1.messages = db.messages := by
  simp only [join_group]
  split <;> rfl

theorem mem_user_groups_of_pair (db : DB) (g uid : Nat)
    (h : (g, uid) ∈ db.group_members) : g ∈ user_groups db uid := by
  simp only [user_groups, List.mem_map, List.mem_filter]
  exact ⟨(g, uid), ⟨h, by simp⟩, rfl⟩

/-- C9: a non-admin invoking broadcast gets the 无权限 ("no permission")
error; an admin's broadcast is pushed to exactly the online accounts other
than the sender; the server state (hence the message log) is unchanged in
both cases, so nothing is persisted and any user's later offline fetch is
unaffected. -/
theorem broadcast_admin_only (st : ServerState) (u : User)
    (content : String) :
    (u.role ≠ "admin" →
      handle_broadcast st u content =
        (st, ⟨"broadcast", "error", "无权限", 0⟩, [])) ∧
    (u.role = "admin" →
      handle_broadcast st u content =
        (st, ⟨"broadcast", "ok", "公告已发送", 0⟩,
          broadcast_targets st.online u.id)) ∧
    (∀ x, x ∈ broadcast_targets st.online u.id ↔
      (x ∈ st.online.map (fun pr => pr.1) ∧ x ≠ u.id)) ∧
    (handle_broadcast st u content).1 = st ∧
    (∀ v, fetch_offline_messages (handle_broadcast st u content).1.db v =
      fetch_offline_messages st.db v) := by
  refine ⟨?_, ?_, ?_, ?_, ?_⟩
  · intro h
    simp [handle_broadcast, h]
  · intro h
    simp [handle_broadcast, h]
  · intro x
    simp only [broadcast_targets, List.mem_filter, List.mem_map]
    simp
  · by_cases h : u.role = "admin" <;> simp [handle_broadcast, h]
  · intro v
    by_cases h : u.role = "admin" <;> simp [handle_broadcast, h]

/-- C9 witness: the admin broadcasts in stW9 (users 1, 2, 9 online). -/
theorem broadcast_admin_only_witness :
    handle_broadcast stW9 adminU "hello" =
      (stW9, ⟨"broadcast", "ok", "公告已发送", 0⟩,
        broadcast_targets stW9.online adminU.id) :=
  (broadcast_admin_only stW9 adminU "hello").2.1 rfl

/-- C10: join_group returns True for every user id and group id — even one
with no groups row — and the session replies status ok; the membership row
is present afterwards (kept as-is when already present); and every
undelivered message addressed to that group id then shows up in the
joining user's fetch_offline_messages. -/
theorem join_group_always_succeeds (st : ServerState) (uid gid : Nat) :
    (join_group st.db uid gid).2 = true ∧
    (handle_join_group st uid gid).2.status = "ok" ∧
    (gid, uid) ∈ (handle_join_group st uid gid).1.db.group_members ∧
    ((gid, uid) ∈ st.db.group_members →
      (join_group st.db uid gid).1 = st.db) ∧
    (∀ m ∈ st.db.messages, m.recipient_type = "group" →
      m.recipient_id = gid → m.delivered = false →
      m ∈ fetch_offline_messages (handle_join_group st uid gid).1.db uid) := by
  have hmem : (gid, uid) ∈ (join_group st.db uid gid).1.group_members := by
    simp only [join_group]
    split
    · assumption
    · exact List.mem_append_right _ (List.mem_singleton.mpr rfl)
  refine ⟨rfl, rfl, hmem, ?_, ?_⟩
  · intro h
    simp [join_group, h]
  · intro m hm hrt hrid hd
    refine List.mem_filter.mpr ⟨?_, ?_⟩
    · rw [handle_join_group]
      dsimp only
      rw [join_group_messages]
      exact hm
    · simp [hd, hrt, hrid]
      exact mem_user_groups_of_pair _ gid uid hmem

/-- C10 witness: user 5 joins the nonexistent group 7 in stW10 and the
undelivered group-7 row becomes visible in user 5's offline fetch. -/
theorem join_group_always_succeeds_witness :
    (join_group stW10.db 5 7).2 = true ∧
    (⟨1, 1, "group", 7, "text", "hi", 1, false⟩ : Msg) ∈
      fetch_offline_messages (handle_join_group stW10 5 7).1.db 5 :=
  ⟨(join_group_always_succeeds stW10 5 7).1,
    (join_group_always_succeeds stW10 5 7).2.2.2.2 _ (by decide) rfl rfl rfl⟩

/-- C4 counterexample: a logout request on an unauthenticated session is
handled before the not-logged-in guard — it produces no auth error and
clears the session's alive flag, so the connection is closed rather than
kept open. -/
theorem unauth_logout_closes :
    route false "logout" = RouteResult.close ∧
    aliveAfter (route false "logout") = false := ⟨rfl, rfl⟩

/-- C4 amended: while unauthenticated, any action other than register,
login and logout yields the auth error 请先登录 ("must log in first") and
the connection stays open; logout instead closes the connection silently. -/
theorem unauth_gate (a : String) (h1 : a ≠ "register") (h2 : a ≠ "login")
    (h3 : a ≠ "logout") :
    route false a = .respond ⟨"auth", "error", "请先登录", 0⟩ ∧
    aliveAfter (route false a) = true := by
  simp [route, h1, h2, h3, aliveAfter]

/-- C4 witness: a broadcast request while unauthenticated. -/
theorem unauth_gate_witness :
    route false "broadcast" = .respond ⟨"auth", "error", "请先登录", 0⟩ ∧
    aliveAfter (route false "broadcast") = true :=
  unauth_gate "broadcast" (by decide) (by decide) (by decide)

/-- C5 counterexample: with a storage fault scheduled, the send handler
raises (Except.error) and produces no response at all — in particular no
send-failed error message reaches the sender. -/
theorem send_storage_fault_counterexample :
    handle_send_message stFault aliceU ⟨"user", 2, "text", "x"⟩ =
      .error () ∧
    sendResponse (handle_send_message stFault aliceU
      ⟨"user", 2, "text", "x"⟩) = none := ⟨rfl, rfl⟩

/-- C5 amended: a send either completes all its persistence and returns
the acknowledgment response, or the storage fault propagates out of the
handler and no response of any kind (in particular no error-status
response) is produced; every response the handler produces has status
ok. -/
theorem send_fault_no_partial_ack (st : ServerState) (u : User)
    (req : SendReq) :
    ((∃ res, handle_send_message st u req = .ok res ∧
        sendResponse (handle_send_message st u req) =
          some ⟨"send_message", "ok", "", res.ack⟩) ∨
      (handle_send_message st u req = .error () ∧
        sendResponse (handle_send_message st u req) = none)) ∧
    (∀ resp, sendResponse (handle_send_message st u req) = some resp →
      resp.status = "ok") := by
  cases h : handle_send_message st u req with
  | error e =>
    cases e
    refine ⟨Or.inr ⟨rfl, rfl⟩, ?_⟩
    intro resp hr
    simp [sendResponse] at hr
  | ok res =>
    refine ⟨Or.inl ⟨res, rfl, rfl⟩, ?_⟩
    intro resp hr
    simp only [sendResponse, Option.some.injEq] at hr
    subst hr
    rfl

/-- C5 amended witness: the faulting direct send from stFault. -/
theorem send_fault_no_partial_ack_witness :
    ((∃ res, handle_send_message stFault aliceU ⟨"user", 2, "text", "x"⟩ =
        .ok res ∧
        sendResponse (handle_send_message stFault aliceU
          ⟨"user", 2, "text", "x"⟩) =
          some ⟨"send_message", "ok", "", res.ack⟩) ∨
      (handle_send_message stFault aliceU ⟨"user", 2, "text", "x"⟩ =
        .error () ∧
        sendResponse (handle_send_message stFault aliceU
          ⟨"user", 2, "text", "x"⟩) = none)) ∧
    (∀ resp, sendResponse (handle_send_message stFault aliceU
        ⟨"user", 2, "text", "x"⟩) = some resp → resp.status = "ok") :=
  send_fault_no_partial_ack stFault aliceU ⟨"user", 2, "text", "x"⟩

/-- C1 counterexample: in the end-to-end scenario, alice's send is indeed
acknowledged with message id 1, but bob — who joins g1 only after the send
— receives an empty offline_messages list at his next login: alice's
message is not replayed to him. -/
theorem e2e_late_joiner_counterexample :
    scnSend.toOption.map (fun r => r.ack) = some 1 ∧
    scnBobLogin.2.map (fun r => r.2.2.2) = some [] := ⟨rfl, rfl⟩

/-- C1 amended: alice's group send to her sole-member group persists
exactly her own copy with delivered = true and acknowledges id 1; bob,
joining g1 after the send, logs in successfully but his offline_messages
flush is empty (the text message does not appear, because the only row for
g1 is already marked delivered). -/
theorem e2e_late_joiner_amended :
    scnSend = .ok ⟨scnSt2, 1, []⟩ ∧
    scnSt2.db.messages = [⟨1, 1, "group", 1, "text", "hi", 1, true⟩] ∧
    (1, 2) ∈ scnDb4.group_members ∧
    scnBobLogin.2.map (fun r => r.1.username) = some "bob" ∧
    scnBobLogin.2.map (fun r => r.2.2.2) = some [] :=
  ⟨rfl, rfl, by decide, rfl, rfl⟩

end Wechat
